import Mathlib

/-!
Shallow embedding of `src/unisoc_pac_parser.py`.

A file (or a block of bytes read from it) is a `List Nat` of byte values.
Python `file.seek(off); file.read(n)` is modelled by `bytesAt`, which
returns the bytes in `[off, off+n)` clamped to the end of the list, exactly
as `read` clamps at end-of-file.  `struct.unpack` field extraction with the
`<` (little-endian, packed) format becomes fixed-offset slices decoded by
`natOfLE`.  Python's strict `bytes.decode('utf-16le')` raises
`UnicodeDecodeError` on a malformed surrogate; this is modelled by
`decodeUtf16` returning `none`.  `bytes.decode('ascii')` likewise fails on a
byte ≥ 128 (`decodeAsciiStrict`), while `decode('ascii', errors='ignore')`
drops such bytes (`decodeAsciiIgnore`).  `str.strip('\x00')` removes NUL
characters from both ends (`stripNul`).  Decoded strings are kept as lists
of Unicode code points.
-/

def bytesAt (bs : List Nat) (off len : Nat) : List Nat := (bs.drop off).take len

def natOfLE : List Nat → Nat
  | [] => 0
  | b :: r => b + 256 * natOfLE r

def readU32 (bs : List Nat) (off : Nat) : Nat := natOfLE (bytesAt bs off 4)

def readU16 (bs : List Nat) (off : Nat) : Nat := natOfLE (bytesAt bs off 2)

def readU32s (bs : List Nat) (off n : Nat) : List Nat :=
  (List.range n).map (fun i => readU32 bs (off + 4 * i))

/-- Pair up bytes into little-endian 16-bit code units, as the UTF-16LE
codec does (all blocks in this format have even width). -/
def toU16s : List Nat → List Nat
  | a :: b :: rest => (a + 256 * b) :: toU16s rest
  | _ => []

/-- Strict UTF-16 decoding of a list of 16-bit units into code points.
A high surrogate must be followed by a low surrogate; a lone or misordered
surrogate makes the whole decode fail, modelling Python's
`UnicodeDecodeError` under the default `errors='strict'`. -/
def decodeUtf16 : List Nat → Option (List Nat)
  | [] => some []
  | u :: rest =>
    if u < 55296 ∨ 57344 ≤ u then
      (decodeUtf16 rest).map (fun cs => u :: cs)
    else if u < 56320 then
      match rest with
      | [] => none
      | v :: rest2 =>
        if 56320 ≤ v ∧ v < 57344 then
          (decodeUtf16 rest2).map (fun cs => (65536 + (u - 55296) * 1024 + (v - 56320)) :: cs)
        else none
    else none

/-- Python `str.strip('\x00')`: remove NUL code points from both ends. -/
def stripNul (l : List Nat) : List Nat :=
  ((l.dropWhile (fun x => x == 0)).reverse.dropWhile (fun x => x == 0)).reverse

/-- Python `bytes.decode('ascii')` (strict): fails iff some byte is ≥ 128. -/
def decodeAsciiStrict (l : List Nat) : Option (List Nat) :=
  if l.all (fun b => decide (b < 128)) then some l else none

/-- Python `bytes.decode('ascii', errors='ignore')`: drop bytes ≥ 128. -/
def decodeAsciiIgnore (l : List Nat) : List Nat :=
  l.filter (fun b => decide (b < 128))

/-- The per-field byte widths of `PacHeader.FORMAT = '<44sII512s512sIIIIIIII200sIII200I2H'`,
in order, mirroring `struct.calcsize`. -/
def PacHeader.widths : List Nat :=
  [44, 4, 4, 512, 512] ++ List.replicate 8 4 ++ [200, 4, 4, 4] ++ List.replicate 200 4 ++ [2, 2]

def PacHeader.SIZE : Nat := PacHeader.widths.sum

/-- Decoded archive header (class `PacHeader`).  Field names follow the
source.  Note the source's off-by-one field labelling: `szPrdAlias` is
assigned the eighth 32-bit integer and `dwOmaDmProductFlag` the 200-byte
ASCII block. -/
structure PacHeader where
  szVersion : List Nat
  dwHiSize : Nat
  dwLoSize : Nat
  szPrdName : List Nat
  szPrdVersion : List Nat
  nFileCount : Nat
  dwFileOffset : Nat
  dwMode : Nat
  dwFlashType : Nat
  dwNandStrategy : Nat
  dwIsNvBackup : Nat
  dwNandPageType : Nat
  szPrdAlias : Nat
  dwOmaDmProductFlag : List Nat
  dwIsOmaDM : Nat
  dwIsPreload : Nat
  dwReserved : List Nat
  dwMagic : Nat
  wCRC1 : Nat
  wCRC2 : Nat
deriving DecidableEq

/-- `PacHeader.__init__`: `struct.unpack` of the 2124-byte block followed by
the text-field decodes.  Any strict text decode failure aborts the whole
constructor (Python raises), modelled by `none`. -/
def PacHeader.decode (bs : List Nat) : Option PacHeader :=
  match decodeUtf16 (toU16s (bytesAt bs 0 44)),
        decodeUtf16 (toU16s (bytesAt bs 52 512)),
        decodeUtf16 (toU16s (bytesAt bs 564 512)),
        decodeAsciiStrict (bytesAt bs 1108 200) with
  | some v, some pn, some pv, some oma =>
    some { szVersion := stripNul v
         , dwHiSize := readU32 bs 44
         , dwLoSize := readU32 bs 48
         , szPrdName := stripNul pn
         , szPrdVersion := stripNul pv
         , nFileCount := readU32 bs 1076
         , dwFileOffset := readU32 bs 1080
         , dwMode := readU32 bs 1084
         , dwFlashType := readU32 bs 1088
         , dwNandStrategy := readU32 bs 1092
         , dwIsNvBackup := readU32 bs 1096
         , dwNandPageType := readU32 bs 1100
         , szPrdAlias := readU32 bs 1104
         , dwOmaDmProductFlag := stripNul oma
         , dwIsOmaDM := readU32 bs 1308
         , dwIsPreload := readU32 bs 1312
         , dwReserved := readU32s bs 1316 200
         , dwMagic := readU32 bs 2116
         , wCRC1 := readU16 bs 2120
         , wCRC2 := readU16 bs 2122 }
  | _, _, _, _ => none

/-- The per-field byte widths of `Header.FORMAT = '<I512s512s504sIIIIIIII5I249I'`. -/
def Header.widths : List Nat :=
  [4, 512, 512, 504] ++ List.replicate 8 4 ++ List.replicate 5 4 ++ List.replicate 249 4

def Header.SIZE : Nat := Header.widths.sum

/-- Decoded partition entry record (class `Header`).  Only the two 32-bit
halves of each 64-bit quantity are stored; the effective 64-bit values are
the derived accessors `Header.nFileSize` and `Header.dwDataOffset` below. -/
structure Header where
  dwSize : Nat
  szFileID : List Nat
  szFileName : List Nat
  szFileVersion : List Nat
  dwHiFileSize : Nat
  dwHiDataOffset : Nat
  dwLoFileSize : Nat
  nFileFlag : Nat
  nCheckFlag : Nat
  dwLoDataOffset : Nat
  dwCanOmitFlag : Nat
  dwAddrNum : Nat
  dwAddr : List Nat
  dwReserved : List Nat
deriving DecidableEq

/-- `Header.__init__`: `struct.unpack` of a 2580-byte record plus text
decodes.  `szFileID`/`szFileName` use strict UTF-16LE (failure aborts);
`szFileVersion` uses lossy ASCII. -/
def Header.decode (bs : List Nat) : Option Header :=
  match decodeUtf16 (toU16s (bytesAt bs 4 512)),
        decodeUtf16 (toU16s (bytesAt bs 516 512)) with
  | some fid, some fn =>
    some { dwSize := readU32 bs 0
         , szFileID := stripNul fid
         , szFileName := stripNul fn
         , szFileVersion := stripNul (decodeAsciiIgnore (bytesAt bs 1028 504))
         , dwHiFileSize := readU32 bs 1532
         , dwHiDataOffset := readU32 bs 1536
         , dwLoFileSize := readU32 bs 1540
         , nFileFlag := readU32 bs 1544
         , nCheckFlag := readU32 bs 1548
         , dwLoDataOffset := readU32 bs 1552
         , dwCanOmitFlag := readU32 bs 1556
         , dwAddrNum := readU32 bs 1560
         , dwAddr := readU32s bs 1564 5
         , dwReserved := readU32s bs 1584 249 }
  | _, _ => none

/-- `@property nFileSize`: `(self.dwHiFileSize << 32) | self.dwLoFileSize`. -/
def Header.nFileSize (h : Header) : Nat := (h.dwHiFileSize <<< 32) ||| h.dwLoFileSize

/-- `@property dwDataOffset`: `(self.dwHiDataOffset << 32) | self.dwLoDataOffset`. -/
def Header.dwDataOffset (h : Header) : Nat := (h.dwHiDataOffset <<< 32) ||| h.dwLoDataOffset

/-- Result of `read_pac_header`: `truncated` models the `None` return on a
short read; `badText` models a text-decode exception escaping the
constructor; `ok` a successfully decoded header. -/
inductive ReadPacResult where
  | truncated : ReadPacResult
  | badText : ReadPacResult
  | ok : PacHeader → ReadPacResult
deriving DecidableEq

/-- `read_pac_header(file)`: read `PacHeader.SIZE` bytes from offset 0,
return `None` (`truncated`) unless exactly that many bytes were obtained. -/
def read_pac_header (file : List Nat) : ReadPacResult :=
  let data := bytesAt file 0 PacHeader.SIZE
  if data.length = PacHeader.SIZE then
    match PacHeader.decode data with
    | some h => ReadPacResult.ok h
    | none => ReadPacResult.badText
  else ReadPacResult.truncated

/-- Result of `read_header`: `short` models the `None` return on a short
read, `badText` a text-decode exception, `ok` a decoded entry. -/
inductive ReadHeaderResult where
  | short : ReadHeaderResult
  | badText : ReadHeaderResult
  | ok : Header → ReadHeaderResult
deriving DecidableEq

/-- `read_header(file, offset)`: read `Header.SIZE` bytes at `offset`,
`None` (`short`) unless exactly that many bytes were obtained. -/
def read_header (file : List Nat) (offset : Nat) : ReadHeaderResult :=
  let data := bytesAt file offset Header.SIZE
  if data.length = Header.SIZE then
    match Header.decode data with
    | some h => ReadHeaderResult.ok h
    | none => ReadHeaderResult.badText
  else ReadHeaderResult.short

/-- The entry-collecting loop of `main` (`for i in range(num_headers_to_read)`):
starting at `offset`, read up to `count` records, advancing by `Header.SIZE`
after each one; a short read breaks out of the loop normally.  The boolean
is `true` iff a record was fully read but its text decode raised, which in
Python crashes the run at that point (entries after it are never produced). -/
def walkEntries (file : List Nat) : Nat → Nat → List Header × Bool
  | _, 0 => ([], false)
  | offset, n + 1 =>
    match read_header file offset with
    | ReadHeaderResult.short => ([], false)
    | ReadHeaderResult.badText => ([], true)
    | ReadHeaderResult.ok h =>
      let r := walkEntries file (offset + Header.SIZE) n
      (h :: r.1, r.2)

/-- `offset = 2124` in `main`: the hard-coded start of the entry table. -/
def tableOffset : Nat := 2124

/-- The header-reading part of `main`: decode the archive header; if it is
valid, walk `nFileCount` entry records starting at the hard-coded
`tableOffset`.  `none` means the run stopped before reading any entry. -/
def process (file : List Nat) : Option (List Header × Bool) :=
  match read_pac_header file with
  | ReadPacResult.ok ph => some (walkEntries file tableOffset ph.nFileCount)
  | _ => none

/-- `extract_data(file, offset, size, output_dir, filename)`: seek to
`offset`, read up to `size` bytes (fewer if the file ends), then open
`os.path.join(output_dir, filename)` for writing and write the bytes read.
When `filename` is the empty string, `os.path.join` yields the directory
path itself and `open(..., 'wb')` raises `IsADirectoryError` — nothing is
written and the exception propagates (modelled as `none`).  Otherwise the
write succeeds and the output file's full content is the bytes read; no
shortfall of the read is ever reported. -/
def extract_data (file : List Nat) (offset size : Nat) (filename : List Nat) :
    Option (List Nat) :=
  if filename = [] then none
  else some (bytesAt file offset size)

/-- The per-entry test of the `--extract` loop:
`header.szFileID == ident or header.szFileName == ident`. -/
def matchesIdent (ident : List Nat) (h : Header) : Bool :=
  h.szFileID == ident || h.szFileName == ident

/-- The `--extract` scan: first entry in table order matching `ident`. -/
def find_entry (headers : List Header) (ident : List Nat) : Option Header :=
  headers.find? (matchesIdent ident)

/-- The `--extract` mode of `main` end to end: `some (name, data)` when a
partition was extracted (output file `name` with content `data`), `none`
when nothing was written — identifier empty (`if args.extract:` is falsy),
header invalid, walk crashed, or no entry matched (`Partition not found.`). -/
def run_extract (file : List Nat) (ident : List Nat) : Option (List Nat × List Nat) :=
  if ident = [] then none
  else
    match read_pac_header file with
    | ReadPacResult.ok ph =>
      match walkEntries file tableOffset ph.nFileCount with
      | (_, true) => none
      | (hs, false) =>
        match find_entry hs ident with
        | some h =>
          match extract_data file h.dwDataOffset h.nFileSize
              (if h.szFileID == ident then h.szFileID else h.szFileName) with
          | some data =>
            some ((if h.szFileID == ident then h.szFileID else h.szFileName), data)
          | none => none
        | none => none
    | _ => none

/-- The destination name chosen by the `--export` loop:
`header.szFileID if header.szFileID else header.szFileName`
(Python truthiness: the empty string falls through). -/
def exportName (h : Header) : List Nat :=
  if h.szFileID = [] then h.szFileName else h.szFileID

/-- The `--export` loop body: extract each entry in table order.  A failed
sink open (the `IsADirectoryError` raised for a blank destination name)
propagates out of `extract_data`, aborting the loop and the run: entries
already written stay on disk, the failing entry and all later ones are
never written.  Result: the `(name, content)` pairs actually written, and
`true` iff the loop died on an exception. -/
def exportLoop (file : List Nat) : List Header → List (List Nat × List Nat) × Bool
  | [] => ([], false)
  | h :: rest =>
    match extract_data file h.dwDataOffset h.nFileSize (exportName h) with
    | none => ([], true)
    | some data =>
      let r := exportLoop file rest
      ((exportName h, data) :: r.1, r.2)

/-- The `--export` mode of `main`: walk the entries, then run the export
loop over them.  `none` when the run stops before the loop (bad or
truncated header, or a walk crash); otherwise the loop's outcome. -/
def run_export (file : List Nat) : Option (List (List Nat × List Nat) × Bool) :=
  match read_pac_header file with
  | ReadPacResult.ok ph =>
    match walkEntries file tableOffset ph.nFileCount with
    | (_, true) => none
    | (hs, false) => some (exportLoop file hs)
  | _ => none

/-- Little-endian 4-byte encoding of a 32-bit value. -/
def u32le (n : Nat) : List Nat :=
  [n % 256, n / 256 % 256, n / 65536 % 256, n / 16777216 % 256]

/-- A full entry record whose declared size is `s`, whose four size/offset
halves are `a` (hi file size), `b` (hi data offset), `c` (lo file size),
`d` (lo data offset), and whose remaining bytes are zero. -/
def mkEntryRecord (s a b c d : Nat) : List Nat :=
  u32le s ++ (List.replicate 1528 0 ++
    (u32le a ++ (u32le b ++ (u32le c ++ (u32le 0 ++ (u32le 0 ++
      (u32le d ++ List.replicate 1024 0)))))))

/-- The entry `mkEntryRecord s a b c d` decodes to. -/
def mkEntryHeader (s a b c d : Nat) : Header :=
  { dwSize := s, szFileID := [], szFileName := [], szFileVersion := []
  , dwHiFileSize := a, dwHiDataOffset := b, dwLoFileSize := c
  , nFileFlag := 0, nCheckFlag := 0, dwLoDataOffset := d
  , dwCanOmitFlag := 0, dwAddrNum := 0
  , dwAddr := List.replicate 5 0, dwReserved := List.replicate 249 0 }

/-- A full archive header block whose entry count is `cnt`, whose stored
entry-table offset field is `off`, and whose remaining bytes are zero. -/
def mkPacBlock (cnt off : Nat) : List Nat :=
  List.replicate 1076 0 ++ (u32le cnt ++ (u32le off ++ List.replicate 1040 0))

/-- The archive header `mkPacBlock cnt off` decodes to. -/
def mkPacHeader (cnt off : Nat) : PacHeader :=
  { szVersion := [], dwHiSize := 0, dwLoSize := 0, szPrdName := [], szPrdVersion := []
  , nFileCount := cnt, dwFileOffset := off, dwMode := 0, dwFlashType := 0
  , dwNandStrategy := 0, dwIsNvBackup := 0, dwNandPageType := 0, szPrdAlias := 0
  , dwOmaDmProductFlag := [], dwIsOmaDM := 0, dwIsPreload := 0
  , dwReserved := List.replicate 200 0, dwMagic := 0, wCRC1 := 0, wCRC2 := 0 }

/-- Modelled from the spec: "text fields stored as fixed-width UTF-16 byte
blocks, trimmed of trailing zero padding on decode" — trimming of trailing
NULs only, for comparison with the code's two-sided `stripNul`. -/
def trimTrailingNul (l : List Nat) : List Nat :=
  (l.reverse.dropWhile (fun x => x == 0)).reverse

/-- A full-size archive header block whose version field starts with a lone
high surrogate (bytes `00 D8`): malformed UTF-16. -/
def surrBlock : List Nat := 0 :: 216 :: List.replicate 2122 0

/-- A full-size archive header block whose version field is NUL, then `A`,
then NUL padding: UTF-16 text with a leading NUL character. -/
def leadNulBlock : List Nat := [0, 0, 65, 0] ++ List.replicate 2120 0

/-- The archive header decoded from `leadNulBlock`. -/
def leadNulHeader : PacHeader :=
  { szVersion := [65], dwHiSize := 0, dwLoSize := 0, szPrdName := [], szPrdVersion := []
  , nFileCount := 0, dwFileOffset := 0, dwMode := 0, dwFlashType := 0, dwNandStrategy := 0
  , dwIsNvBackup := 0, dwNandPageType := 0, szPrdAlias := 0, dwOmaDmProductFlag := []
  , dwIsOmaDM := 0, dwIsPreload := 0, dwReserved := List.replicate 200 0
  , dwMagic := 0, wCRC1 := 0, wCRC2 := 0 }

/-- A 4704-byte file whose archive header declares `nFileCount = 1` and
`dwFileOffset = 5000`, followed (at byte 2124, right after the header) by a
single all-zero entry record except `dwSize = 77`.  The file has fewer than
5000 bytes, so no entry record exists at the stored `dwFileOffset`. -/
def file3 : List Nat := mkPacBlock 1 5000 ++ mkEntryRecord 77 0 0 0 0

/-- The archive header decoded from `file3`. -/
def ph3 : PacHeader := mkPacHeader 1 5000

/-- The entry decoded from `file3`: all zero except `dwSize = 77`. -/
def e77 : Header := mkEntryHeader 77 0 0 0 0

/-- A full entry record whose `szFileID` field holds the single character
`A` (UTF-16LE bytes 65 0) before its NUL padding, whose lo file size is
`c`, and whose remaining bytes are zero. -/
def mkEntryRecordA (c : Nat) : List Nat :=
  u32le 0 ++ ([65, 0] ++ (List.replicate 1526 0 ++
    (u32le 0 ++ (u32le 0 ++ (u32le c ++ (u32le 0 ++ (u32le 0 ++
      (u32le 0 ++ List.replicate 1024 0))))))))

/-- The entry `mkEntryRecordA c` decodes to. -/
def mkEntryHeaderA (c : Nat) : Header :=
  { dwSize := 0, szFileID := [65], szFileName := [], szFileVersion := []
  , dwHiFileSize := 0, dwHiDataOffset := 0, dwLoFileSize := c
  , nFileFlag := 0, nCheckFlag := 0, dwLoDataOffset := 0
  , dwCanOmitFlag := 0, dwAddrNum := 0
  , dwAddr := List.replicate 5 0, dwReserved := List.replicate 249 0 }

/-- A 4704-byte file with one entry named `"A"` whose declared (lo) file
size is 100000 — far more than the whole file holds — and whose data
offset is 0. -/
def fileC4 : List Nat := mkPacBlock 1 0 ++ mkEntryRecordA 100000

/-- The entry decoded from `fileC4`. -/
def eC4 : Header := mkEntryHeaderA 100000

/-- A file declaring two entries, both of whose records are entirely zero:
both identifiers of both entries are blank. -/
def fileC7 : List Nat :=
  mkPacBlock 2 0 ++ (mkEntryRecord 0 0 0 0 0 ++ mkEntryRecord 0 0 0 0 0)

/-! ### Basic facts about the byte-level primitives -/

theorem bytesAt_length (bs : List Nat) (off len : Nat) :
    (bytesAt bs off len).length = min len (bs.length - off) := by
  simp [bytesAt]

theorem bytesAt_append_left {l₁ : List Nat} (l₂ : List Nat) {off len : Nat}
    (h : off + len ≤ l₁.length) :
    bytesAt (l₁ ++ l₂) off len = bytesAt l₁ off len := by
  have h0 : len - (l₁.length - off) = 0 := by omega
  simp [bytesAt, List.drop_append_eq_append_drop, List.take_append_eq_append_take,
    List.length_drop, h0]

theorem bytesAt_append_right (l₁ : List Nat) {l₂ : List Nat} {off : Nat} (len : Nat)
    (h : l₁.length ≤ off) :
    bytesAt (l₁ ++ l₂) off len = bytesAt l₂ (off - l₁.length) len := by
  have h0 : l₁.drop off = [] := List.drop_eq_nil_of_le h
  simp [bytesAt, List.drop_append_eq_append_drop, h0]

theorem bytesAt_replicate {n : Nat} (v : Nat) {off len : Nat} (h : off + len ≤ n) :
    bytesAt (List.replicate n v) off len = List.replicate len v := by
  have h1 : min len (n - off) = len := by omega
  simp [bytesAt, List.drop_replicate, List.take_replicate, h1]

theorem bytesAt_whole {l : List Nat} {len : Nat} (h : l.length ≤ len) :
    bytesAt l 0 len = l := by
  simp [bytesAt, List.take_of_length_le h]

theorem natOfLE_u32le {n : Nat} (h : n < 4294967296) : natOfLE (u32le n) = n := by
  simp [u32le, natOfLE]
  omega

theorem u32le_length (n : Nat) : (u32le n).length = 4 := rfl

theorem u32le_zero : u32le 0 = List.replicate 4 0 := rfl

/-! ### Decoding all-zero text blocks -/

theorem toU16s_replicate (n : Nat) : toU16s (List.replicate (2 * n) 0) = List.replicate n 0 := by
  induction n with
  | zero => rfl
  | succ k ih =>
    have h2 : 2 * (k + 1) = 2 * k + 1 + 1 := by omega
    rw [h2, List.replicate_succ, List.replicate_succ, toU16s, ih]
    simp [List.replicate_succ]

theorem decodeUtf16_replicate (n : Nat) :
    decodeUtf16 (List.replicate n 0) = some (List.replicate n 0) := by
  induction n with
  | zero => rfl
  | succ k ih =>
    rw [List.replicate_succ, decodeUtf16.eq_def]
    simp [ih, List.replicate_succ]

theorem dropWhileZero_replicate_append (n : Nat) (l : List Nat) :
    (List.replicate n 0 ++ l).dropWhile (fun x => x == 0) = l.dropWhile (fun x => x == 0) := by
  induction n with
  | zero => simp
  | succ k ih =>
    rw [List.replicate_succ]
    simp [List.dropWhile, ih]

theorem stripNul_replicate (n : Nat) : stripNul (List.replicate n 0) = [] := by
  have h := dropWhileZero_replicate_append n []
  simp only [List.append_nil, List.dropWhile_nil] at h
  simp [stripNul, h]

theorem decodeAsciiStrict_replicate (n : Nat) :
    decodeAsciiStrict (List.replicate n 0) = some (List.replicate n 0) := by
  simp [decodeAsciiStrict]

theorem decodeAsciiIgnore_replicate (n : Nat) :
    decodeAsciiIgnore (List.replicate n 0) = List.replicate n 0 := by
  simp [decodeAsciiIgnore]

theorem readU32s_zeros {bs : List Nat} {off n : Nat}
    (h : ∀ k, k < n → bytesAt bs (off + 4 * k) 4 = List.replicate 4 0) :
    readU32s bs off n = List.replicate n 0 := by
  rw [readU32s, List.eq_replicate_iff]
  constructor
  · simp
  · intro b hb
    obtain ⟨i, hi, rfl⟩ := List.mem_map.mp hb
    rw [List.mem_range] at hi
    rw [readU32, h i hi]
    rfl

theorem bytesAt_skip (l₁ : List Nat) {l₂ : List Nat} {off : Nat} (len : Nat) {k : Nat}
    (hk : l₁.length = k) (h : k ≤ off) :
    bytesAt (l₁ ++ l₂) off len = bytesAt l₂ (off - k) len := by
  subst hk
  exact bytesAt_append_right l₁ len h

theorem bytesAt_prefix (l₁ : List Nat) {l₂ : List Nat} {len : Nat} (h : l₁.length = len) :
    bytesAt (l₁ ++ l₂) 0 len = l₁ := by
  simp [bytesAt, List.take_left' h]

theorem pacHeaderSIZE_eq : PacHeader.SIZE = 2124 := by
  norm_num [PacHeader.SIZE, PacHeader.widths, List.sum_append, List.sum_replicate]

theorem headerSIZE_eq : Header.SIZE = 2580 := by
  norm_num [Header.SIZE, Header.widths, List.sum_append, List.sum_replicate]

theorem mkEntryRecord_length (s a b c d : Nat) : (mkEntryRecord s a b c d).length = 2580 := by
  simp only [mkEntryRecord, u32le, List.length_append, List.length_replicate,
    List.length_cons, List.length_nil]

theorem mkPacBlock_length (cnt off : Nat) : (mkPacBlock cnt off).length = 2124 := by
  simp only [mkPacBlock, u32le, List.length_append, List.length_replicate,
    List.length_cons, List.length_nil]

theorem decodeUtf16_zero512 : decodeUtf16 (toU16s (List.replicate 512 0)) = some (List.replicate 256 0) := by
  rw [show (512 : Nat) = 2 * 256 from by norm_num, toU16s_replicate, decodeUtf16_replicate]

theorem decodeUtf16_zero44 : decodeUtf16 (toU16s (List.replicate 44 0)) = some (List.replicate 22 0) := by
  rw [show (44 : Nat) = 2 * 22 from by norm_num, toU16s_replicate, decodeUtf16_replicate]

theorem mkEntryRecord_mid {s a b c d : Nat} {off len : Nat} (h1 : 4 ≤ off)
    (h2 : off + len ≤ 1532) :
    bytesAt (mkEntryRecord s a b c d) off len = List.replicate len 0 := by
  rw [mkEntryRecord, bytesAt_skip (u32le s) len (u32le_length s) (by omega),
    bytesAt_append_left _ (by simp only [List.length_replicate]; omega),
    bytesAt_replicate 0 (by omega)]

theorem mkEntryRecord_tail {s a b c d : Nat} {off len : Nat} (h1 : 1556 ≤ off)
    (h2 : off + len ≤ 2580) :
    bytesAt (mkEntryRecord s a b c d) off len = List.replicate len 0 := by
  rw [mkEntryRecord, bytesAt_skip (u32le s) len (u32le_length s) (by omega),
    bytesAt_skip (List.replicate 1528 0) len (List.length_replicate 1528 0) (by omega),
    bytesAt_skip (u32le a) len (u32le_length a) (by omega),
    bytesAt_skip (u32le b) len (u32le_length b) (by omega),
    bytesAt_skip (u32le c) len (u32le_length c) (by omega),
    bytesAt_skip (u32le 0) len (u32le_length 0) (by omega),
    bytesAt_skip (u32le 0) len (u32le_length 0) (by omega),
    bytesAt_skip (u32le d) len (u32le_length d) (by omega),
    bytesAt_replicate 0 (by omega)]

theorem mkEntryRecord_at1532 (s a b c d : Nat) :
    bytesAt (mkEntryRecord s a b c d) 1532 4 = u32le a := by
  rw [mkEntryRecord, bytesAt_skip (u32le s) 4 (u32le_length s) (by omega),
    bytesAt_skip (List.replicate 1528 0) 4 (List.length_replicate 1528 0) (by omega)]
  norm_num
  exact bytesAt_prefix (u32le a) (u32le_length a)

theorem mkEntryRecord_at1536 (s a b c d : Nat) :
    bytesAt (mkEntryRecord s a b c d) 1536 4 = u32le b := by
  rw [mkEntryRecord, bytesAt_skip (u32le s) 4 (u32le_length s) (by omega),
    bytesAt_skip (List.replicate 1528 0) 4 (List.length_replicate 1528 0) (by omega),
    bytesAt_skip (u32le a) 4 (u32le_length a) (by omega)]
  norm_num
  exact bytesAt_prefix (u32le b) (u32le_length b)

theorem mkEntryRecord_at1540 (s a b c d : Nat) :
    bytesAt (mkEntryRecord s a b c d) 1540 4 = u32le c := by
  rw [mkEntryRecord, bytesAt_skip (u32le s) 4 (u32le_length s) (by omega),
    bytesAt_skip (List.replicate 1528 0) 4 (List.length_replicate 1528 0) (by omega),
    bytesAt_skip (u32le a) 4 (u32le_length a) (by omega),
    bytesAt_skip (u32le b) 4 (u32le_length b) (by omega)]
  norm_num
  exact bytesAt_prefix (u32le c) (u32le_length c)

theorem mkEntryRecord_at1544 (s a b c d : Nat) :
    bytesAt (mkEntryRecord s a b c d) 1544 4 = u32le 0 := by
  rw [mkEntryRecord, bytesAt_skip (u32le s) 4 (u32le_length s) (by omega),
    bytesAt_skip (List.replicate 1528 0) 4 (List.length_replicate 1528 0) (by omega),
    bytesAt_skip (u32le a) 4 (u32le_length a) (by omega),
    bytesAt_skip (u32le b) 4 (u32le_length b) (by omega),
    bytesAt_skip (u32le c) 4 (u32le_length c) (by omega)]
  norm_num
  exact bytesAt_prefix (u32le 0) (u32le_length 0)

theorem mkEntryRecord_at1548 (s a b c d : Nat) :
    bytesAt (mkEntryRecord s a b c d) 1548 4 = u32le 0 := by
  rw [mkEntryRecord, bytesAt_skip (u32le s) 4 (u32le_length s) (by omega),
    bytesAt_skip (List.replicate 1528 0) 4 (List.length_replicate 1528 0) (by omega),
    bytesAt_skip (u32le a) 4 (u32le_length a) (by omega),
    bytesAt_skip (u32le b) 4 (u32le_length b) (by omega),
    bytesAt_skip (u32le c) 4 (u32le_length c) (by omega),
    bytesAt_skip (u32le 0) 4 (u32le_length 0) (by omega)]
  norm_num
  exact bytesAt_prefix (u32le 0) (u32le_length 0)

theorem mkEntryRecord_at1552 (s a b c d : Nat) :
    bytesAt (mkEntryRecord s a b c d) 1552 4 = u32le d := by
  rw [mkEntryRecord, bytesAt_skip (u32le s) 4 (u32le_length s) (by omega),
    bytesAt_skip (List.replicate 1528 0) 4 (List.length_replicate 1528 0) (by omega),
    bytesAt_skip (u32le a) 4 (u32le_length a) (by omega),
    bytesAt_skip (u32le b) 4 (u32le_length b) (by omega),
    bytesAt_skip (u32le c) 4 (u32le_length c) (by omega),
    bytesAt_skip (u32le 0) 4 (u32le_length 0) (by omega),
    bytesAt_skip (u32le 0) 4 (u32le_length 0) (by omega)]
  norm_num
  exact bytesAt_prefix (u32le d) (u32le_length d)

theorem mkEntryRecord_at0 (s a b c d : Nat) :
    bytesAt (mkEntryRecord s a b c d) 0 4 = u32le s := by
  rw [mkEntryRecord]
  exact bytesAt_prefix (u32le s) (u32le_length s)

theorem natOfLE_replicate4 : natOfLE (List.replicate 4 0) = 0 := rfl

theorem Header.decode_mkEntryRecord {s a b c d : Nat} (hs : s < 4294967296)
    (ha : a < 4294967296) (hb : b < 4294967296) (hc : c < 4294967296)
    (hd : d < 4294967296) :
    Header.decode (mkEntryRecord s a b c d) = some (mkEntryHeader s a b c d) := by
  have hfid : bytesAt (mkEntryRecord s a b c d) 4 512 = List.replicate 512 0 :=
    mkEntryRecord_mid (by omega) (by omega)
  have hfn : bytesAt (mkEntryRecord s a b c d) 516 512 = List.replicate 512 0 :=
    mkEntryRecord_mid (by omega) (by omega)
  have hver : bytesAt (mkEntryRecord s a b c d) 1028 504 = List.replicate 504 0 :=
    mkEntryRecord_mid (by omega) (by omega)
  have f0 : readU32 (mkEntryRecord s a b c d) 0 = s := by
    rw [readU32, mkEntryRecord_at0, natOfLE_u32le hs]
  have f1532 : readU32 (mkEntryRecord s a b c d) 1532 = a := by
    rw [readU32, mkEntryRecord_at1532, natOfLE_u32le ha]
  have f1536 : readU32 (mkEntryRecord s a b c d) 1536 = b := by
    rw [readU32, mkEntryRecord_at1536, natOfLE_u32le hb]
  have f1540 : readU32 (mkEntryRecord s a b c d) 1540 = c := by
    rw [readU32, mkEntryRecord_at1540, natOfLE_u32le hc]
  have f1544 : readU32 (mkEntryRecord s a b c d) 1544 = 0 := by
    rw [readU32, mkEntryRecord_at1544]
    rfl
  have f1548 : readU32 (mkEntryRecord s a b c d) 1548 = 0 := by
    rw [readU32, mkEntryRecord_at1548]
    rfl
  have f1552 : readU32 (mkEntryRecord s a b c d) 1552 = d := by
    rw [readU32, mkEntryRecord_at1552, natOfLE_u32le hd]
  have f1556 : readU32 (mkEntryRecord s a b c d) 1556 = 0 := by
    rw [readU32, mkEntryRecord_tail (by omega) (by omega), natOfLE_replicate4]
  have f1560 : readU32 (mkEntryRecord s a b c d) 1560 = 0 := by
    rw [readU32, mkEntryRecord_tail (by omega) (by omega), natOfLE_replicate4]
  have haddr : readU32s (mkEntryRecord s a b c d) 1564 5 = List.replicate 5 0 :=
    readU32s_zeros (fun k hk => by
      rw [mkEntryRecord_tail (by omega) (by omega)])
  have hres : readU32s (mkEntryRecord s a b c d) 1584 249 = List.replicate 249 0 :=
    readU32s_zeros (fun k hk => by
      rw [mkEntryRecord_tail (by omega) (by omega)])
  rw [Header.decode, hfid, hfn, hver, decodeUtf16_zero512]
  simp only [f0, f1532, f1536, f1540, f1544, f1548, f1552, f1556, f1560, haddr, hres,
    stripNul_replicate, decodeAsciiIgnore_replicate, mkEntryHeader]

theorem natOfLE_replicate2 : natOfLE (List.replicate 2 0) = 0 := rfl

theorem mkPacBlock_front {cnt off : Nat} {o len : Nat} (h : o + len ≤ 1076) :
    bytesAt (mkPacBlock cnt off) o len = List.replicate len 0 := by
  rw [mkPacBlock, bytesAt_append_left _ (by simp only [List.length_replicate]; omega),
    bytesAt_replicate 0 (by omega)]

theorem mkPacBlock_tail {cnt off : Nat} {o len : Nat} (h1 : 1084 ≤ o) (h2 : o + len ≤ 2124) :
    bytesAt (mkPacBlock cnt off) o len = List.replicate len 0 := by
  rw [mkPacBlock, bytesAt_skip (List.replicate 1076 0) len (List.length_replicate 1076 0) (by omega),
    bytesAt_skip (u32le cnt) len (u32le_length cnt) (by omega),
    bytesAt_skip (u32le off) len (u32le_length off) (by omega),
    bytesAt_replicate 0 (by omega)]

theorem mkPacBlock_at1076 (cnt off : Nat) :
    bytesAt (mkPacBlock cnt off) 1076 4 = u32le cnt := by
  rw [mkPacBlock, bytesAt_skip (List.replicate 1076 0) 4 (List.length_replicate 1076 0) (by omega)]
  norm_num
  exact bytesAt_prefix (u32le cnt) (u32le_length cnt)

theorem mkPacBlock_at1080 (cnt off : Nat) :
    bytesAt (mkPacBlock cnt off) 1080 4 = u32le off := by
  rw [mkPacBlock, bytesAt_skip (List.replicate 1076 0) 4 (List.length_replicate 1076 0) (by omega),
    bytesAt_skip (u32le cnt) 4 (u32le_length cnt) (by omega)]
  norm_num
  exact bytesAt_prefix (u32le off) (u32le_length off)

theorem PacHeader.decode_mkPacBlock {cnt off : Nat} (hc : cnt < 4294967296)
    (ho : off < 4294967296) :
    PacHeader.decode (mkPacBlock cnt off) = some (mkPacHeader cnt off) := by
  have hv : bytesAt (mkPacBlock cnt off) 0 44 = List.replicate 44 0 :=
    mkPacBlock_front (by omega)
  have hpn : bytesAt (mkPacBlock cnt off) 52 512 = List.replicate 512 0 :=
    mkPacBlock_front (by omega)
  have hpv : bytesAt (mkPacBlock cnt off) 564 512 = List.replicate 512 0 :=
    mkPacBlock_front (by omega)
  have homa : bytesAt (mkPacBlock cnt off) 1108 200 = List.replicate 200 0 :=
    mkPacBlock_tail (by omega) (by omega)
  have f44 : readU32 (mkPacBlock cnt off) 44 = 0 := by
    rw [readU32, mkPacBlock_front (by omega), natOfLE_replicate4]
  have f48 : readU32 (mkPacBlock cnt off) 48 = 0 := by
    rw [readU32, mkPacBlock_front (by omega), natOfLE_replicate4]
  have f1076 : readU32 (mkPacBlock cnt off) 1076 = cnt := by
    rw [readU32, mkPacBlock_at1076, natOfLE_u32le hc]
  have f1080 : readU32 (mkPacBlock cnt off) 1080 = off := by
    rw [readU32, mkPacBlock_at1080, natOfLE_u32le ho]
  have ftail : ∀ o : Nat, 1084 ≤ o → o + 4 ≤ 2124 → readU32 (mkPacBlock cnt off) o = 0 := by
    intro o h1 h2
    rw [readU32, mkPacBlock_tail (by omega) (by omega), natOfLE_replicate4]
  have hres : readU32s (mkPacBlock cnt off) 1316 200 = List.replicate 200 0 :=
    readU32s_zeros (fun k hk => by
      rw [mkPacBlock_tail (by omega) (by omega)])
  have fcrc1 : readU16 (mkPacBlock cnt off) 2120 = 0 := by
    rw [readU16, mkPacBlock_tail (by omega) (by omega), natOfLE_replicate2]
  have fcrc2 : readU16 (mkPacBlock cnt off) 2122 = 0 := by
    rw [readU16, mkPacBlock_tail (by omega) (by omega), natOfLE_replicate2]
  rw [PacHeader.decode, hv, hpn, hpv, homa, decodeUtf16_zero44, decodeUtf16_zero512,
    decodeAsciiStrict_replicate]
  simp only [f44, f48, f1076, f1080, ftail 1084 (by omega) (by omega),
    ftail 1088 (by omega) (by omega), ftail 1092 (by omega) (by omega),
    ftail 1096 (by omega) (by omega), ftail 1100 (by omega) (by omega),
    ftail 1104 (by omega) (by omega), ftail 1308 (by omega) (by omega),
    ftail 1312 (by omega) (by omega), ftail 2116 (by omega) (by omega),
    hres, fcrc1, fcrc2, stripNul_replicate, mkPacHeader]


theorem read_pac_header_mkPacBlock {cnt off : Nat} (rest : List Nat)
    (hc : cnt < 4294967296) (ho : off < 4294967296) :
    read_pac_header (mkPacBlock cnt off ++ rest) = ReadPacResult.ok (mkPacHeader cnt off) := by
  have hbytes : bytesAt (mkPacBlock cnt off ++ rest) 0 2124 = mkPacBlock cnt off := by
    rw [bytesAt_append_left _ (by rw [mkPacBlock_length]),
      bytesAt_whole (by rw [mkPacBlock_length])]
  simp only [read_pac_header, pacHeaderSIZE_eq]
  rw [hbytes, mkPacBlock_length, if_pos rfl]
  rw [PacHeader.decode_mkPacBlock hc ho]

theorem read_header_at_mkEntry (pre post : List Nat) {s a b c d : Nat} {off : Nat}
    (hoff : pre.length = off) (hs : s < 4294967296) (ha : a < 4294967296)
    (hb : b < 4294967296) (hc : c < 4294967296) (hd : d < 4294967296) :
    read_header (pre ++ (mkEntryRecord s a b c d ++ post)) off =
      ReadHeaderResult.ok (mkEntryHeader s a b c d) := by
  have hbytes : bytesAt (pre ++ (mkEntryRecord s a b c d ++ post)) off 2580 =
      mkEntryRecord s a b c d := by
    rw [bytesAt_skip pre 2580 hoff (Nat.le_refl off), Nat.sub_self,
      bytesAt_append_left _ (by rw [mkEntryRecord_length]),
      bytesAt_whole (by rw [mkEntryRecord_length])]
  simp only [read_header, headerSIZE_eq]
  rw [hbytes, mkEntryRecord_length, if_pos rfl]
  rw [Header.decode_mkEntryRecord hs ha hb hc hd]

theorem read_header_last_mkEntry (pre : List Nat) {s a b c d : Nat} {off : Nat}
    (hoff : pre.length = off) (hs : s < 4294967296) (ha : a < 4294967296)
    (hb : b < 4294967296) (hc : c < 4294967296) (hd : d < 4294967296) :
    read_header (pre ++ mkEntryRecord s a b c d) off =
      ReadHeaderResult.ok (mkEntryHeader s a b c d) := by
  have hbytes : bytesAt (pre ++ mkEntryRecord s a b c d) off 2580 =
      mkEntryRecord s a b c d := by
    rw [bytesAt_skip pre 2580 hoff (Nat.le_refl off), Nat.sub_self,
      bytesAt_whole (by rw [mkEntryRecord_length])]
  simp only [read_header, headerSIZE_eq]
  rw [hbytes, mkEntryRecord_length, if_pos rfl]
  rw [Header.decode_mkEntryRecord hs ha hb hc hd]

theorem read_header_short {file : List Nat} {off : Nat} (h : file.length < off + Header.SIZE) :
    read_header file off = ReadHeaderResult.short := by
  rw [headerSIZE_eq] at h
  have hlen : ¬ (bytesAt file off 2580).length = 2580 := by
    rw [bytesAt_length]
    omega
  simp only [read_header, headerSIZE_eq]
  rw [if_neg hlen]

theorem walkEntries_zero (file : List Nat) (off : Nat) : walkEntries file off 0 = ([], false) :=
  rfl

set_option maxRecDepth 4000 in
theorem walkEntries_succ (file : List Nat) (off n : Nat) :
    walkEntries file off (n + 1) =
      match read_header file off with
      | ReadHeaderResult.short => ([], false)
      | ReadHeaderResult.badText => ([], true)
      | ReadHeaderResult.ok h =>
        (h :: (walkEntries file (off + Header.SIZE) n).1,
          (walkEntries file (off + Header.SIZE) n).2) := by
  conv_lhs => rw [walkEntries.eq_def]

theorem walkEntries_ok {file : List Nat} {off n : Nat} {h : Header}
    (hr : read_header file off = ReadHeaderResult.ok h) :
    walkEntries file off (n + 1) =
      (h :: (walkEntries file (off + Header.SIZE) n).1,
        (walkEntries file (off + Header.SIZE) n).2) := by
  rw [walkEntries_succ, hr]

theorem walkEntries_short {file : List Nat} {off n : Nat}
    (hr : read_header file off = ReadHeaderResult.short) :
    walkEntries file off (n + 1) = ([], false) := by
  rw [walkEntries_succ, hr]

theorem read_pac_file3 : read_pac_header file3 = ReadPacResult.ok ph3 := by
  rw [file3, ph3]
  exact read_pac_header_mkPacBlock _ (by norm_num) (by norm_num)

theorem read_entry_file3 : read_header file3 tableOffset = ReadHeaderResult.ok e77 := by
  rw [file3, e77, tableOffset]
  exact read_header_last_mkEntry _ (mkPacBlock_length 1 5000) (by norm_num) (by norm_num)
    (by norm_num) (by norm_num) (by norm_num)

theorem walk_file3 : walkEntries file3 tableOffset 1 = ([e77], false) := by
  rw [show (1 : Nat) = 0 + 1 from rfl, walkEntries_ok read_entry_file3, walkEntries_zero]

theorem proc_file3 : process file3 = some ([e77], false) := by
  unfold process
  rw [read_pac_file3]
  show some (walkEntries file3 tableOffset ph3.nFileCount) = some ([e77], false)
  rw [show ph3.nFileCount = 1 from rfl, walk_file3]

theorem file3_length : file3.length = 4704 := by
  rw [file3, List.length_append, mkPacBlock_length, mkEntryRecord_length]

theorem bytesAt_zero_append (l₁ : List Nat) {l₂ : List Nat} {len : Nat} (h : l₁.length ≤ len) :
    bytesAt (l₁ ++ l₂) 0 len = l₁ ++ bytesAt l₂ 0 (len - l₁.length) := by
  simp [bytesAt, List.take_append_eq_append_take, List.take_of_length_le h]

theorem toU16s_cons (a b : Nat) (l : List Nat) : toU16s (a :: b :: l) = (a + 256 * b) :: toU16s l :=
  rfl

theorem decodeUtf16_cons_small {u : Nat} (hu : u < 55296) (l : List Nat) :
    decodeUtf16 (u :: l) = (decodeUtf16 l).map (fun cs => u :: cs) := by
  rw [decodeUtf16.eq_def]
  simp [hu]

theorem stripNul_A : stripNul (65 :: List.replicate 255 0) = [65] := by
  have h1 : List.dropWhile (fun x => x == 0) (65 :: List.replicate 255 0)
      = 65 :: List.replicate 255 0 := by
    rw [List.dropWhile_cons]
    norm_num
  have h2 : List.dropWhile (fun x => x == 0) [65] = [65] := by decide
  rw [stripNul, h1, List.reverse_cons, List.reverse_replicate,
    dropWhileZero_replicate_append, h2]
  rfl

theorem mkEntryRecordA_length (c : Nat) : (mkEntryRecordA c).length = 2580 := by
  simp only [mkEntryRecordA, u32le, List.length_append, List.length_replicate,
    List.length_cons, List.length_nil]

theorem Header.decode_mkEntryRecordA {c : Nat} (hc : c < 4294967296) :
    Header.decode (mkEntryRecordA c) = some (mkEntryHeaderA c) := by
  have hmid : ∀ o len : Nat, 6 ≤ o → o + len ≤ 1532 →
      bytesAt (mkEntryRecordA c) o len = List.replicate len 0 := by
    intro o len h1 h2
    rw [mkEntryRecordA, bytesAt_skip (u32le 0) len (u32le_length 0) (by omega),
      bytesAt_skip [65, 0] len (show ([65, 0] : List Nat).length = 2 from rfl) (by omega),
      bytesAt_append_left _ (by simp only [List.length_replicate]; omega),
      bytesAt_replicate 0 (by omega)]
  have htail : ∀ o len : Nat, 1556 ≤ o → o + len ≤ 2580 →
      bytesAt (mkEntryRecordA c) o len = List.replicate len 0 := by
    intro o len h1 h2
    rw [mkEntryRecordA, bytesAt_skip (u32le 0) len (u32le_length 0) (by omega),
      bytesAt_skip [65, 0] len (show ([65, 0] : List Nat).length = 2 from rfl) (by omega),
      bytesAt_skip (List.replicate 1526 0) len (List.length_replicate 1526 0) (by omega),
      bytesAt_skip (u32le 0) len (u32le_length 0) (by omega),
      bytesAt_skip (u32le 0) len (u32le_length 0) (by omega),
      bytesAt_skip (u32le c) len (u32le_length c) (by omega),
      bytesAt_skip (u32le 0) len (u32le_length 0) (by omega),
      bytesAt_skip (u32le 0) len (u32le_length 0) (by omega),
      bytesAt_skip (u32le 0) len (u32le_length 0) (by omega),
      bytesAt_replicate 0 (by omega)]
  have hfid : decodeUtf16 (toU16s (bytesAt (mkEntryRecordA c) 4 512)) =
      some (65 :: List.replicate 255 0) := by
    have hb : bytesAt (mkEntryRecordA c) 4 512 = 65 :: 0 :: List.replicate 510 0 := by
      rw [mkEntryRecordA, bytesAt_skip (u32le 0) 512 (u32le_length 0) (by omega),
        Nat.sub_self, bytesAt_zero_append [65, 0] (by simp)]
      norm_num
      rw [bytesAt_append_left _ (by simp only [List.length_replicate]; omega),
        bytesAt_replicate 0 (by omega)]
    rw [hb, toU16s_cons, show (510 : Nat) = 2 * 255 from rfl, toU16s_replicate]
    norm_num
    rw [decodeUtf16_cons_small (by norm_num) _, decodeUtf16_replicate]
    rfl
  have hfn : bytesAt (mkEntryRecordA c) 516 512 = List.replicate 512 0 :=
    hmid 516 512 (by omega) (by omega)
  have hver : stripNul (decodeAsciiIgnore (bytesAt (mkEntryRecordA c) 1028 504)) = [] := by
    rw [hmid 1028 504 (by omega) (by omega), decodeAsciiIgnore_replicate, stripNul_replicate]
  have f0 : readU32 (mkEntryRecordA c) 0 = 0 := by
    rw [readU32, mkEntryRecordA, bytesAt_prefix (u32le 0) (u32le_length 0)]
    rfl
  have f1532 : readU32 (mkEntryRecordA c) 1532 = 0 := by
    rw [readU32, mkEntryRecordA, bytesAt_skip (u32le 0) 4 (u32le_length 0) (by omega),
      bytesAt_skip [65, 0] 4 (show ([65, 0] : List Nat).length = 2 from rfl) (by omega),
      bytesAt_skip (List.replicate 1526 0) 4 (List.length_replicate 1526 0) (by omega)]
    norm_num
    rw [ bytesAt_prefix (u32le 0) (u32le_length 0)]
    rfl
  have f1536 : readU32 (mkEntryRecordA c) 1536 = 0 := by
    rw [readU32, mkEntryRecordA, bytesAt_skip (u32le 0) 4 (u32le_length 0) (by omega),
      bytesAt_skip [65, 0] 4 (show ([65, 0] : List Nat).length = 2 from rfl) (by omega),
      bytesAt_skip (List.replicate 1526 0) 4 (List.length_replicate 1526 0) (by omega),
      bytesAt_skip (u32le 0) 4 (u32le_length 0) (by omega)]
    norm_num
    rw [ bytesAt_prefix (u32le 0) (u32le_length 0)]
    rfl
  have f1540 : readU32 (mkEntryRecordA c) 1540 = c := by
    rw [readU32, mkEntryRecordA, bytesAt_skip (u32le 0) 4 (u32le_length 0) (by omega),
      bytesAt_skip [65, 0] 4 (show ([65, 0] : List Nat).length = 2 from rfl) (by omega),
      bytesAt_skip (List.replicate 1526 0) 4 (List.length_replicate 1526 0) (by omega),
      bytesAt_skip (u32le 0) 4 (u32le_length 0) (by omega),
      bytesAt_skip (u32le 0) 4 (u32le_length 0) (by omega)]
    norm_num
    rw [ bytesAt_prefix (u32le c) (u32le_length c), natOfLE_u32le hc]
  have f1544 : readU32 (mkEntryRecordA c) 1544 = 0 := by
    rw [readU32, mkEntryRecordA, bytesAt_skip (u32le 0) 4 (u32le_length 0) (by omega),
      bytesAt_skip [65, 0] 4 (show ([65, 0] : List Nat).length = 2 from rfl) (by omega),
      bytesAt_skip (List.replicate 1526 0) 4 (List.length_replicate 1526 0) (by omega),
      bytesAt_skip (u32le 0) 4 (u32le_length 0) (by omega),
      bytesAt_skip (u32le 0) 4 (u32le_length 0) (by omega),
      bytesAt_skip (u32le c) 4 (u32le_length c) (by omega)]
    norm_num
    rw [ bytesAt_prefix (u32le 0) (u32le_length 0)]
    rfl
  have f1548 : readU32 (mkEntryRecordA c) 1548 = 0 := by
    rw [readU32, mkEntryRecordA, bytesAt_skip (u32le 0) 4 (u32le_length 0) (by omega),
      bytesAt_skip [65, 0] 4 (show ([65, 0] : List Nat).length = 2 from rfl) (by omega),
      bytesAt_skip (List.replicate 1526 0) 4 (List.length_replicate 1526 0) (by omega),
      bytesAt_skip (u32le 0) 4 (u32le_length 0) (by omega),
      bytesAt_skip (u32le 0) 4 (u32le_length 0) (by omega),
      bytesAt_skip (u32le c) 4 (u32le_length c) (by omega),
      bytesAt_skip (u32le 0) 4 (u32le_length 0) (by omega)]
    norm_num
    rw [ bytesAt_prefix (u32le 0) (u32le_length 0)]
    rfl
  have f1552 : readU32 (mkEntryRecordA c) 1552 = 0 := by
    rw [readU32, mkEntryRecordA, bytesAt_skip (u32le 0) 4 (u32le_length 0) (by omega),
      bytesAt_skip [65, 0] 4 (show ([65, 0] : List Nat).length = 2 from rfl) (by omega),
      bytesAt_skip (List.replicate 1526 0) 4 (List.length_replicate 1526 0) (by omega),
      bytesAt_skip (u32le 0) 4 (u32le_length 0) (by omega),
      bytesAt_skip (u32le 0) 4 (u32le_length 0) (by omega),
      bytesAt_skip (u32le c) 4 (u32le_length c) (by omega),
      bytesAt_skip (u32le 0) 4 (u32le_length 0) (by omega),
      bytesAt_skip (u32le 0) 4 (u32le_length 0) (by omega)]
    norm_num
    rw [ bytesAt_prefix (u32le 0) (u32le_length 0)]
    rfl
  have f1556 : readU32 (mkEntryRecordA c) 1556 = 0 := by
    rw [readU32, htail 1556 4 (by omega) (by omega), natOfLE_replicate4]
  have f1560 : readU32 (mkEntryRecordA c) 1560 = 0 := by
    rw [readU32, htail 1560 4 (by omega) (by omega), natOfLE_replicate4]
  have haddr : readU32s (mkEntryRecordA c) 1564 5 = List.replicate 5 0 :=
    readU32s_zeros (fun k hk => by
      rw [htail (1564 + 4 * k) 4 (by omega) (by omega)])
  have hres : readU32s (mkEntryRecordA c) 1584 249 = List.replicate 249 0 :=
    readU32s_zeros (fun k hk => by
      rw [htail (1584 + 4 * k) 4 (by omega) (by omega)])
  rw [Header.decode, hfid, hfn, decodeUtf16_zero512]
  simp only [f0, f1532, f1536, f1540, f1544, f1548, f1552, f1556, f1560, haddr, hres,
    stripNul_replicate, stripNul_A, hver, mkEntryHeaderA]

theorem read_pac_fileC4 : read_pac_header fileC4 = ReadPacResult.ok (mkPacHeader 1 0) := by
  rw [fileC4]
  exact read_pac_header_mkPacBlock _ (by norm_num) (by norm_num)

theorem read_entry_fileC4 : read_header fileC4 tableOffset = ReadHeaderResult.ok eC4 := by
  have hbytes : bytesAt fileC4 2124 2580 = mkEntryRecordA 100000 := by
    rw [fileC4, bytesAt_skip (mkPacBlock 1 0) 2580 (mkPacBlock_length 1 0) (by omega)]
    norm_num
    exact bytesAt_whole (by rw [mkEntryRecordA_length])
  rw [tableOffset]
  simp only [read_header, headerSIZE_eq]
  rw [hbytes, mkEntryRecordA_length, if_pos rfl,
    Header.decode_mkEntryRecordA (by norm_num)]
  rfl

theorem walk_fileC4 : walkEntries fileC4 tableOffset 1 = ([eC4], false) := by
  rw [show (1 : Nat) = 0 + 1 from rfl, walkEntries_ok read_entry_fileC4, walkEntries_zero]

theorem fileC4_length : fileC4.length = 4704 := by
  rw [fileC4, List.length_append, mkPacBlock_length, mkEntryRecordA_length]

theorem extract_fileC4 : run_extract fileC4 [65] = some ([65], fileC4) := by
  unfold run_extract
  rw [if_neg (by decide), read_pac_fileC4]
  simp only []
  rw [show (mkPacHeader 1 0).nFileCount = 1 from rfl, walk_fileC4]
  simp only []
  have hfind : find_entry [eC4] [65] = some eC4 := by
    rw [find_entry]
    exact List.find?_cons_of_pos _ (by decide)
  rw [hfind]
  simp only []
  rw [show (if eC4.szFileID == [65] then eC4.szFileID else eC4.szFileName) = [65] from by decide]
  rw [show eC4.dwDataOffset = 0 from by decide, show eC4.nFileSize = 100000 from by decide]
  rw [show extract_data fileC4 0 100000 [65] = some (bytesAt fileC4 0 100000) from by
    rw [extract_data, if_neg (by decide)]]
  rw [bytesAt_whole (by rw [fileC4_length]; omega)]

theorem read_pac_fileC7 : read_pac_header fileC7 = ReadPacResult.ok (mkPacHeader 2 0) := by
  rw [fileC7]
  exact read_pac_header_mkPacBlock _ (by norm_num) (by norm_num)

theorem read_entry0_fileC7 :
    read_header fileC7 tableOffset = ReadHeaderResult.ok (mkEntryHeader 0 0 0 0 0) := by
  rw [fileC7, tableOffset]
  exact read_header_at_mkEntry _ _ (mkPacBlock_length 2 0) (by norm_num) (by norm_num)
    (by norm_num) (by norm_num) (by norm_num)

theorem read_entry1_fileC7 :
    read_header fileC7 (tableOffset + Header.SIZE) =
      ReadHeaderResult.ok (mkEntryHeader 0 0 0 0 0) := by
  rw [fileC7, tableOffset, headerSIZE_eq, ← List.append_assoc]
  exact read_header_last_mkEntry _
    (by rw [List.length_append, mkPacBlock_length, mkEntryRecord_length])
    (by norm_num) (by norm_num) (by norm_num) (by norm_num) (by norm_num)

theorem walk_fileC7 :
    walkEntries fileC7 tableOffset 2 =
      ([mkEntryHeader 0 0 0 0 0, mkEntryHeader 0 0 0 0 0], false) := by
  rw [show (2 : Nat) = 1 + 1 from rfl, walkEntries_ok read_entry0_fileC7,
    show (1 : Nat) = 0 + 1 from rfl, walkEntries_ok read_entry1_fileC7, walkEntries_zero]

theorem proc_fileC7 :
    process fileC7 = some ([mkEntryHeader 0 0 0 0 0, mkEntryHeader 0 0 0 0 0], false) := by
  unfold process
  rw [read_pac_fileC7]
  show some (walkEntries fileC7 tableOffset (mkPacHeader 2 0).nFileCount) =
    some ([mkEntryHeader 0 0 0 0 0, mkEntryHeader 0 0 0 0 0], false)
  rw [show (mkPacHeader 2 0).nFileCount = 2 from rfl, walk_fileC7]

theorem exportLoop_nil (file : List Nat) : exportLoop file [] = ([], false) := rfl

theorem exportLoop_cons (file : List Nat) (h : Header) (rest : List Header) :
    exportLoop file (h :: rest) =
      match extract_data file h.dwDataOffset h.nFileSize (exportName h) with
      | none => ([], true)
      | some data =>
        ((exportName h, data) :: (exportLoop file rest).1, (exportLoop file rest).2) :=
  rfl

theorem export_fileC7 : run_export fileC7 = some ([], true) := by
  unfold run_export
  rw [read_pac_fileC7]
  simp only []
  rw [show (mkPacHeader 2 0).nFileCount = 2 from rfl, walk_fileC7]
  simp only []
  rw [exportLoop_cons]
  rw [show extract_data fileC7 (mkEntryHeader 0 0 0 0 0).dwDataOffset
      (mkEntryHeader 0 0 0 0 0).nFileSize (exportName (mkEntryHeader 0 0 0 0 0)) = none
    from by decide]

theorem surrBlock_length : surrBlock.length = 2124 := by
  rw [surrBlock]
  simp only [List.length_cons, List.length_replicate]

theorem decode_surrBlock : PacHeader.decode surrBlock = none := by decide

theorem read_pac_surrBlock : read_pac_header surrBlock = ReadPacResult.badText := by
  have hb : bytesAt surrBlock 0 2124 = surrBlock := bytesAt_whole (by rw [surrBlock_length])
  simp only [read_pac_header, pacHeaderSIZE_eq]
  rw [hb, surrBlock_length, if_pos rfl, decode_surrBlock]

theorem proc_surrBlock : process surrBlock = none := by
  unfold process
  rw [read_pac_surrBlock]

theorem leadNulBlock_tail {o len : Nat} (h1 : 4 ≤ o) (h2 : o + len ≤ 2124) :
    bytesAt leadNulBlock o len = List.replicate len 0 := by
  rw [leadNulBlock,
    bytesAt_skip [0, 0, 65, 0] len (show ([0, 0, 65, 0] : List Nat).length = 4 from rfl) (by omega),
    bytesAt_replicate 0 (by omega)]

theorem leadNulBlock_version :
    decodeUtf16 (toU16s (bytesAt leadNulBlock 0 44)) = some (0 :: 65 :: List.replicate 20 0) := by
  have h44 : bytesAt leadNulBlock 0 44 = 0 :: 0 :: 65 :: 0 :: List.replicate 40 0 := by
    rw [leadNulBlock, bytesAt_zero_append _ (by simp)]
    norm_num
    rw [bytesAt_replicate 0 (by omega)]
  rw [h44, toU16s_cons, toU16s_cons, show (40 : Nat) = 2 * 20 from rfl, toU16s_replicate]
  norm_num
  rw [decodeUtf16_cons_small (by norm_num), decodeUtf16_cons_small (by norm_num),
    decodeUtf16_replicate]
  rfl

theorem leadNulBlock_strip : stripNul (0 :: 65 :: List.replicate 20 0) = [65] := by
  rw [stripNul]
  simp [List.dropWhile, dropWhileZero_replicate_append]

theorem leadNulBlock_length : leadNulBlock.length = 2124 := by
  rw [leadNulBlock]
  simp only [List.length_append, List.length_cons, List.length_nil, List.length_replicate]

theorem decode_leadNulBlock : PacHeader.decode leadNulBlock = some leadNulHeader := by
  have hpn : bytesAt leadNulBlock 52 512 = List.replicate 512 0 :=
    leadNulBlock_tail (by omega) (by omega)
  have hpv : bytesAt leadNulBlock 564 512 = List.replicate 512 0 :=
    leadNulBlock_tail (by omega) (by omega)
  have homa : bytesAt leadNulBlock 1108 200 = List.replicate 200 0 :=
    leadNulBlock_tail (by omega) (by omega)
  have ftail : ∀ o : Nat, 4 ≤ o → o + 4 ≤ 2124 → readU32 leadNulBlock o = 0 := by
    intro o h1 h2
    rw [readU32, leadNulBlock_tail (by omega) (by omega), natOfLE_replicate4]
  have hres : readU32s leadNulBlock 1316 200 = List.replicate 200 0 :=
    readU32s_zeros (fun k hk => by
      rw [leadNulBlock_tail (by omega) (by omega)])
  have fcrc1 : readU16 leadNulBlock 2120 = 0 := by
    rw [readU16, leadNulBlock_tail (by omega) (by omega), natOfLE_replicate2]
  have fcrc2 : readU16 leadNulBlock 2122 = 0 := by
    rw [readU16, leadNulBlock_tail (by omega) (by omega), natOfLE_replicate2]
  rw [PacHeader.decode, leadNulBlock_version, hpn, hpv, homa, decodeUtf16_zero512,
    decodeAsciiStrict_replicate]
  simp only [ftail 44 (by omega) (by omega), ftail 48 (by omega) (by omega),
    ftail 1076 (by omega) (by omega), ftail 1080 (by omega) (by omega),
    ftail 1084 (by omega) (by omega), ftail 1088 (by omega) (by omega),
    ftail 1092 (by omega) (by omega), ftail 1096 (by omega) (by omega),
    ftail 1100 (by omega) (by omega), ftail 1104 (by omega) (by omega),
    ftail 1308 (by omega) (by omega), ftail 1312 (by omega) (by omega),
    ftail 2116 (by omega) (by omega), hres, fcrc1, fcrc2, stripNul_replicate,
    leadNulBlock_strip, leadNulHeader]

theorem read_pac_leadNulBlock : read_pac_header leadNulBlock = ReadPacResult.ok leadNulHeader := by
  have hb : bytesAt leadNulBlock 0 2124 = leadNulBlock := bytesAt_whole (by rw [leadNulBlock_length])
  simp only [read_pac_header, pacHeaderSIZE_eq]
  rw [hb, leadNulBlock_length, if_pos rfl, decode_leadNulBlock]

theorem read_header_ok_inv {file : List Nat} {off : Nat} {h : Header}
    (hr : read_header file off = ReadHeaderResult.ok h) :
    (bytesAt file off Header.SIZE).length = Header.SIZE ∧
      Header.decode (bytesAt file off Header.SIZE) = some h := by
  unfold read_header at hr
  simp only [] at hr
  split at hr
  · rename_i hlen
    split at hr
    · rename_i h2 hdec
      cases hr
      exact ⟨hlen, hdec⟩
    · cases hr
  · cases hr

theorem read_header_badText_inv {file : List Nat} {off : Nat}
    (hr : read_header file off = ReadHeaderResult.badText) :
    (bytesAt file off Header.SIZE).length = Header.SIZE ∧
      Header.decode (bytesAt file off Header.SIZE) = none := by
  unfold read_header at hr
  simp only [] at hr
  split at hr
  · rename_i hlen
    split at hr
    · cases hr
    · rename_i hdec
      exact ⟨hlen, hdec⟩
  · cases hr

theorem read_pac_truncated_iff (file : List Nat) :
    read_pac_header file = ReadPacResult.truncated ↔ file.length < PacHeader.SIZE := by
  unfold read_pac_header
  constructor
  · intro hr
    simp only [] at hr
    split at hr
    · split at hr <;> cases hr
    · rename_i hcond
      rw [bytesAt_length] at hcond
      omega
  · intro hlt
    have hcond : ¬ (bytesAt file 0 PacHeader.SIZE).length = PacHeader.SIZE := by
      rw [bytesAt_length]
      omega
    rw [if_neg hcond]

/-- The reconstruction `(hi <<< 32) ||| lo` is exactly the number
`hi * 2^32 + lo` whenever `lo` fits in 32 bits. -/
theorem hiLo_as_sum {hi lo : Nat} (hlo : lo < 4294967296) :
    (hi <<< 32) ||| lo = hi * 4294967296 + lo := by
  have h1 : hi <<< 32 = 2 ^ 32 * hi := by
    rw [Nat.shiftLeft_eq, Nat.mul_comm]
  have h2 : lo < 2 ^ 32 := by norm_num [hlo]
  have h3 := Nat.mul_add_lt_is_or h2 hi
  rw [h1, ← h3]
  norm_num [Nat.mul_comm]

theorem find?_first {α : Type} (p : α → Bool) :
    ∀ (l : List α) (x : α), l.find? p = some x →
      p x = true ∧ ∃ i : Nat, l[i]? = some x ∧
        ∀ (j : Nat) (y : α), j < i → l[j]? = some y → p y = false := by
  intro l
  induction l with
  | nil =>
    intro x hx
    simp at hx
  | cons a t ih =>
    intro x hx
    by_cases hpa : p a = true
    · rw [List.find?_cons_of_pos _ hpa] at hx
      cases hx
      refine ⟨hpa, 0, by simp, ?_⟩
      intro j y hj hget
      exact absurd hj (Nat.not_lt_zero j)
    · rw [List.find?_cons_of_neg _ hpa] at hx
      obtain ⟨hpx, i, hi, hjall⟩ := ih x hx
      rw [Bool.not_eq_true] at hpa
      refine ⟨hpx, i + 1, by simpa using hi, ?_⟩
      intro j y hjlt hget
      cases j with
      | zero =>
        have hya : a = y := by simpa using hget
        rw [← hya]
        exact hpa
      | succ k =>
        exact hjall k y (by omega) (by simpa using hget)

theorem dropWhileZero_spec (l : List Nat) :
    ∃ n, l = List.replicate n 0 ++ l.dropWhile (fun x => x == 0) ∧
      (l.dropWhile (fun x => x == 0)).head? ≠ some 0 := by
  induction l with
  | nil => exact ⟨0, by simp, by simp⟩
  | cons a t ih =>
    by_cases ha : a = 0
    · subst ha
      obtain ⟨n, h1, h2⟩ := ih
      have hd : ((0 : Nat) :: t).dropWhile (fun x => x == 0) = t.dropWhile (fun x => x == 0) := by
        simp [List.dropWhile]
      refine ⟨n + 1, ?_, by rw [hd]; exact h2⟩
      rw [hd, List.replicate_succ, List.cons_append, ← h1]
    · have hba : (a == 0) = false := by
        simp [ha]
      have hd : (a :: t).dropWhile (fun x => x == 0) = a :: t := by
        simp [List.dropWhile, hba]
      refine ⟨0, by rw [hd]; simp, ?_⟩
      rw [hd]
      simp [ha]

theorem stripNul_spec (l : List Nat) :
    ∃ n m, l = List.replicate n 0 ++ stripNul l ++ List.replicate m 0 ∧
      (stripNul l = [] ∨
        ((stripNul l).head? ≠ some 0 ∧ (stripNul l).getLast? ≠ some 0)) := by
  obtain ⟨n, h1, h2⟩ := dropWhileZero_spec l
  obtain ⟨m, g1, g2⟩ := dropWhileZero_spec (l.dropWhile (fun x => x == 0)).reverse
  have hs : stripNul l =
      ((l.dropWhile (fun x => x == 0)).reverse.dropWhile (fun x => x == 0)).reverse := rfl
  have hl1d : l.dropWhile (fun x => x == 0) =
      ((l.dropWhile (fun x => x == 0)).reverse.dropWhile (fun x => x == 0)).reverse ++
        List.replicate m 0 := by
    have hrev := congrArg List.reverse g1
    simpa [List.reverse_append, List.reverse_replicate, List.reverse_reverse] using hrev
  refine ⟨n, m, ?_, ?_⟩
  · rw [hs]
    conv_lhs => rw [h1, hl1d]
    simp [List.append_assoc]
  · by_cases hnil :
      ((l.dropWhile (fun x => x == 0)).reverse.dropWhile (fun x => x == 0)).reverse = []
    · left
      rw [hs]
      exact hnil
    · right
      constructor
      · rw [hs]
        have hh :
            (((l.dropWhile (fun x => x == 0)).reverse.dropWhile (fun x => x == 0)).reverse ++
              List.replicate m 0).head? =
            ((l.dropWhile (fun x => x == 0)).reverse.dropWhile (fun x => x == 0)).reverse.head? :=
          List.head?_append_of_ne_nil _ hnil
        rw [← hl1d] at hh
        rw [← hh]
        exact h2
      · rw [hs, List.getLast?_reverse]
        exact g2

/-- C1: for every decoded partition entry, the effective file size equals
`(dwHiFileSize <<< 32) ||| dwLoFileSize` and the effective data offset
equals `(dwHiDataOffset <<< 32) ||| dwLoDataOffset`, as exact unsigned
64-bit values, for all 32-bit hi/lo combinations (hi = 0 and hi > 0 alike):
decoding a record built from halves `a b c d` recovers exactly those
halves, and the accessors `Header.nFileSize` / `Header.dwDataOffset` are
derived read-only from the stored 32-bit halves (they are functions of the
structure, which stores only the halves), never stored separately. -/
theorem C1_effective_values (s a b c d : Nat) (hs : s < 4294967296) (ha : a < 4294967296)
    (hb : b < 4294967296) (hc : c < 4294967296) (hd : d < 4294967296) :
    Header.decode (mkEntryRecord s a b c d) = some (mkEntryHeader s a b c d)
    ∧ (mkEntryHeader s a b c d).dwHiFileSize = a
    ∧ (mkEntryHeader s a b c d).dwLoFileSize = c
    ∧ (mkEntryHeader s a b c d).dwHiDataOffset = b
    ∧ (mkEntryHeader s a b c d).dwLoDataOffset = d
    ∧ (mkEntryHeader s a b c d).nFileSize = ((a <<< 32) ||| c)
    ∧ (mkEntryHeader s a b c d).dwDataOffset = ((b <<< 32) ||| d)
    ∧ (mkEntryHeader s a b c d).nFileSize = a * 4294967296 + c
    ∧ (mkEntryHeader s a b c d).dwDataOffset = b * 4294967296 + d
    ∧ (∀ h : Header, h.nFileSize = (h.dwHiFileSize <<< 32) ||| h.dwLoFileSize
        ∧ h.dwDataOffset = (h.dwHiDataOffset <<< 32) ||| h.dwLoDataOffset) := by
  refine ⟨Header.decode_mkEntryRecord hs ha hb hc hd, rfl, rfl, rfl, rfl, rfl, rfl, ?_, ?_,
    fun h => ⟨rfl, rfl⟩⟩
  · exact hiLo_as_sum hc
  · exact hiLo_as_sum hd

/-- Witness for C1 at the concrete halves 1/2/3/4 (with dwSize 9). -/
theorem C1_effective_values_witness :
    Header.decode (mkEntryRecord 9 1 2 3 4) = some (mkEntryHeader 9 1 2 3 4)
    ∧ (mkEntryHeader 9 1 2 3 4).nFileSize = 1 * 4294967296 + 3
    ∧ (mkEntryHeader 9 1 2 3 4).dwDataOffset = 2 * 4294967296 + 4 := by
  have h := C1_effective_values 9 1 2 3 4 (by norm_num) (by norm_num) (by norm_num)
    (by norm_num) (by norm_num)
  exact ⟨h.1, h.2.2.2.2.2.2.2.1, h.2.2.2.2.2.2.2.2.1⟩

/-- C2: the entry-table walk yields at most
`min entry_count ((file_len - table_offset) / ENTRY_RECORD_SIZE)` decoded
entries; every yielded entry was read entirely from within the file (never
past end-of-file); and when the record read at index `i` returns fewer than
`Header.SIZE` bytes the walk yields at most the entries before `i` and (if
no earlier record had undecodable text) terminates with no error signal. -/
theorem C2_walk_bound (file : List Nat) : ∀ count off : Nat,
    ((walkEntries file off count).1.length ≤ min count ((file.length - off) / Header.SIZE))
    ∧ (∀ (i : Nat) (h : Header), ((walkEntries file off count).1)[i]? = some h →
        off + (i + 1) * Header.SIZE ≤ file.length)
    ∧ (∀ i : Nat, i < count →
        (bytesAt file (off + i * Header.SIZE) Header.SIZE).length < Header.SIZE →
        (walkEntries file off count).1.length ≤ i
        ∧ ((∀ j : Nat, j < i →
              Header.decode (bytesAt file (off + j * Header.SIZE) Header.SIZE) ≠ none) →
            (walkEntries file off count).2 = false)) := by
  intro count
  induction count with
  | zero =>
    intro off
    refine ⟨by rw [walkEntries_zero]; simp, ?_, ?_⟩
    · intro i h hi
      rw [walkEntries_zero] at hi
      simp at hi
    · intro i hi
      exact absurd hi (Nat.not_lt_zero i)
  | succ n ih =>
    intro off
    cases hr : read_header file off with
    | short =>
      refine ⟨?_, ?_, ?_⟩
      · rw [walkEntries_short hr]
        simp
      · intro i h hi
        rw [walkEntries_short hr] at hi
        simp at hi
      · intro i hi hsh
        rw [walkEntries_short hr]
        exact ⟨by simp, fun _ => rfl⟩
    | badText =>
      have hw : walkEntries file off (n + 1) = ([], true) := by
        rw [walkEntries_succ, hr]
      obtain ⟨hflen, hfdec⟩ := read_header_badText_inv hr
      refine ⟨?_, ?_, ?_⟩
      · rw [hw]
        simp
      · intro i h hi
        rw [hw] at hi
        simp at hi
      · intro i hi hsh
        refine ⟨by rw [hw]; simp, ?_⟩
        intro hgood
        exfalso
        cases i with
        | zero =>
          rw [show off + 0 * Header.SIZE = off from by simp] at hsh
          omega
        | succ k =>
          have h0 := hgood 0 (by omega)
          rw [show off + 0 * Header.SIZE = off from by simp] at h0
          exact h0 hfdec
    | ok h0 =>
      have hw : walkEntries file off (n + 1) =
          (h0 :: (walkEntries file (off + Header.SIZE) n).1,
            (walkEntries file (off + Header.SIZE) n).2) := walkEntries_ok hr
      obtain ⟨hflen, hfdec⟩ := read_header_ok_inv hr
      have hsz : Header.SIZE ≤ file.length - off := by
        rw [bytesAt_length] at hflen
        omega
      have hSpos : 0 < Header.SIZE := by
        rw [headerSIZE_eq]
        omega
      have hsub : file.length - off - Header.SIZE = file.length - (off + Header.SIZE) := by
        omega
      have hdiv : (file.length - off) / Header.SIZE =
          (file.length - (off + Header.SIZE)) / Header.SIZE + 1 := by
        rw [Nat.div_eq_sub_div hSpos hsz, hsub]
      obtain ⟨ihA, ihB, ihC⟩ := ih (off + Header.SIZE)
      refine ⟨?_, ?_, ?_⟩
      · rw [hw]
        simp only [List.length_cons]
        omega
      · intro i h hi
        rw [hw] at hi
        cases i with
        | zero => omega
        | succ k =>
          have hi' : (walkEntries file (off + Header.SIZE) n).1[k]? = some h := by
            simpa using hi
          have hb := ihB k h hi'
          have hmul : (k + 1 + 1) * Header.SIZE = (k + 1) * Header.SIZE + Header.SIZE :=
            Nat.succ_mul (k + 1) Header.SIZE
          omega
      · intro i hi hsh
        cases i with
        | zero =>
          exfalso
          rw [show off + 0 * Header.SIZE = off from by simp] at hsh
          omega
        | succ k =>
          have heq : off + (k + 1) * Header.SIZE = off + Header.SIZE + k * Header.SIZE := by
            rw [Nat.succ_mul]
            omega
          rw [heq] at hsh
          obtain ⟨hlen2, hcr⟩ := ihC k (by omega) hsh
          refine ⟨?_, ?_⟩
          · rw [hw]
            simp only [List.length_cons]
            omega
          · intro hgood
            rw [hw]
            apply hcr
            intro j hj
            have hmono := hgood (j + 1) (by omega)
            have heq2 : off + (j + 1) * Header.SIZE = off + Header.SIZE + j * Header.SIZE := by
              rw [Nat.succ_mul]
              omega
            rw [heq2] at hmono
            exact hmono

/-- Witness for C2 on the empty file with `entry_count = 1`: the walk
yields nothing and terminates without an error signal at the short read. -/
theorem C2_walk_bound_witness :
    (walkEntries [] 0 1).1.length ≤ 0 ∧ (walkEntries [] 0 1).2 = false := by
  have h := C2_walk_bound [] 1 0
  have hsh : (bytesAt [] (0 + 0 * Header.SIZE) Header.SIZE).length < Header.SIZE := by
    rw [bytesAt_length, headerSIZE_eq]
    simp
  have h3 := h.2.2 0 (by omega) hsh
  exact ⟨h3.1, h3.2 (fun j hj => absurd hj (Nat.not_lt_zero j))⟩

/-- C3 counterexample: `file3`'s archive header stores `dwFileOffset = 5000`,
and the file is only 4704 bytes long, so no entry record can be read at the
header-specified offset — yet the walk decodes one entry (the record placed
at the hard-coded offset 2124, recognisable by `dwSize = 77`).  The claim
that the walk starts at the offset the decoded header specifies is false. -/
theorem C3_counterexample :
    read_pac_header file3 = ReadPacResult.ok ph3
    ∧ ph3.dwFileOffset = 5000
    ∧ process file3 = some ([e77], false)
    ∧ e77.dwSize = 77
    ∧ file3.length = 4704
    ∧ file3.length < ph3.dwFileOffset := by
  refine ⟨read_pac_file3, rfl, proc_file3, rfl, file3_length, ?_⟩
  rw [file3_length, show ph3.dwFileOffset = 5000 from rfl]
  omega

/-- C3 amended: the walk reads record `i` from absolute offset
`offset + i * Header.SIZE` (every yielded entry decodes from exactly that
slice), and `process` always starts it at the hard-coded `tableOffset`
(2124), ignoring the header's `dwFileOffset` field. -/
theorem C3_amended_fixed_offsets :
    (∀ (file : List Nat) (off count i : Nat) (h : Header),
        ((walkEntries file off count).1)[i]? = some h →
        Header.decode (bytesAt file (off + i * Header.SIZE) Header.SIZE) = some h)
    ∧ (∀ (file : List Nat) (ph : PacHeader), read_pac_header file = ReadPacResult.ok ph →
        process file = some (walkEntries file tableOffset ph.nFileCount)) := by
  constructor
  · intro file off count
    induction count generalizing off with
    | zero =>
      intro i h hi
      rw [walkEntries_zero] at hi
      simp at hi
    | succ n ih =>
      intro i h hi
      cases hr : read_header file off with
      | short =>
        rw [walkEntries_short hr] at hi
        simp at hi
      | badText =>
        rw [walkEntries_succ, hr] at hi
        simp at hi
      | ok h0 =>
        have hw : walkEntries file off (n + 1) =
            (h0 :: (walkEntries file (off + Header.SIZE) n).1,
              (walkEntries file (off + Header.SIZE) n).2) := walkEntries_ok hr
        rw [hw] at hi
        obtain ⟨hflen, hfdec⟩ := read_header_ok_inv hr
        cases i with
        | zero =>
          have hh : h0 = h := by simpa using hi
          rw [show off + 0 * Header.SIZE = off from by simp, ← hh]
          exact hfdec
        | succ k =>
          have hi' : (walkEntries file (off + Header.SIZE) n).1[k]? = some h := by
            simpa using hi
          have hrec := ih (off + Header.SIZE) k h hi'
          rw [show off + (k + 1) * Header.SIZE = off + Header.SIZE + k * Header.SIZE from by
            rw [Nat.succ_mul]; omega]
          exact hrec
  · intro file ph hok
    unfold process
    rw [hok]

/-- Witness for C3 amended: `file3`'s single walked entry decodes from the
slice at `tableOffset + 0 * Header.SIZE`. -/
theorem C3_amended_fixed_offsets_witness :
    Header.decode (bytesAt file3 (tableOffset + 0 * Header.SIZE) Header.SIZE) = some e77 :=
  C3_amended_fixed_offsets.1 file3 tableOffset 1 0 e77 (by rw [walk_file3]; rfl)

/-- C10: the walker's hard-coded start offset 2124 equals `PacHeader.SIZE`
(the archive header size computed from the field-width table), so the entry
table is always read from the byte immediately after the fixed-size archive
header, independent of the file's stored `dwFileOffset` value. -/
theorem C10_tableOffset_eq_header_size :
    tableOffset = PacHeader.SIZE
    ∧ PacHeader.SIZE = 2124
    ∧ (∀ (file : List Nat) (ph : PacHeader), read_pac_header file = ReadPacResult.ok ph →
        process file = some (walkEntries file PacHeader.SIZE ph.nFileCount)) := by
  have h1 : PacHeader.SIZE = tableOffset := by
    rw [tableOffset, pacHeaderSIZE_eq]
  refine ⟨h1.symm, pacHeaderSIZE_eq, ?_⟩
  intro file ph hok
  unfold process
  rw [hok, h1]

/-- Witness for C10 on `file3` (whose stored `dwFileOffset` is 5000, not
2124): the walk still starts at `PacHeader.SIZE`. -/
theorem C10_tableOffset_eq_header_size_witness :
    process file3 = some (walkEntries file3 PacHeader.SIZE ph3.nFileCount) :=
  C10_tableOffset_eq_header_size.2.2 file3 ph3 read_pac_file3

/-- C9: archive header decode returns the truncated result exactly when the
file holds fewer than `PacHeader.SIZE` bytes (the size computed from the
field-width table), and that failure is fatal: no entry is walked and no
extraction output is produced in either mode. -/
theorem C9_truncated_header (file : List Nat) :
    (read_pac_header file = ReadPacResult.truncated ↔ file.length < PacHeader.SIZE)
    ∧ (file.length < PacHeader.SIZE →
        process file = none
        ∧ (∀ ident : List Nat, run_extract file ident = none)
        ∧ run_export file = none) := by
  refine ⟨read_pac_truncated_iff file, ?_⟩
  intro hlt
  have ht : read_pac_header file = ReadPacResult.truncated :=
    (read_pac_truncated_iff file).mpr hlt
  refine ⟨?_, ?_, ?_⟩
  · unfold process
    rw [ht]
  · intro ident
    unfold run_extract
    rw [ht]
    split
    · rfl
    · rfl
  · unfold run_export
    rw [ht]

/-- Witness for C9 on the empty file. -/
theorem C9_truncated_header_witness :
    read_pac_header [] = ReadPacResult.truncated ∧ process [] = none := by
  have h := C9_truncated_header []
  have hlt : ([] : List Nat).length < PacHeader.SIZE := by
    rw [pacHeaderSIZE_eq]
    simp
  exact ⟨h.1.mpr hlt, (h.2 hlt).1⟩

/-- C6: lookup-by-identifier returns the first entry in table order whose
`szFileID` or `szFileName` is exactly (case-sensitively) equal to the
requested identifier — every earlier entry matches neither field — and when
no entry matches, `run_extract` writes no output file. -/
theorem C6_lookup_first_match :
    (∀ (headers : List Header) (ident : List Nat) (h : Header),
        find_entry headers ident = some h →
        (h.szFileID = ident ∨ h.szFileName = ident)
        ∧ ∃ i : Nat, headers[i]? = some h ∧
            ∀ (j : Nat) (e : Header), j < i → headers[j]? = some e →
              ¬(e.szFileID = ident ∨ e.szFileName = ident))
    ∧ (∀ (headers : List Header) (ident : List Nat),
        find_entry headers ident = none ↔
          ∀ e ∈ headers, ¬(e.szFileID = ident ∨ e.szFileName = ident))
    ∧ (∀ (file ident : List Nat) (ph : PacHeader),
        read_pac_header file = ReadPacResult.ok ph →
        find_entry (walkEntries file tableOffset ph.nFileCount).1 ident = none →
        run_extract file ident = none) := by
  have hmatch : ∀ (ident : List Nat) (e : Header),
      matchesIdent ident e = true ↔ (e.szFileID = ident ∨ e.szFileName = ident) := by
    intro ident e
    simp [matchesIdent]
  refine ⟨?_, ?_, ?_⟩
  · intro headers ident h hf
    obtain ⟨hp, i, hi, hj⟩ := find?_first (matchesIdent ident) headers h hf
    refine ⟨(hmatch ident h).mp hp, i, hi, ?_⟩
    intro j e hji hget hcontra
    have hfalse := hj j e hji hget
    have htrue := (hmatch ident e).mpr hcontra
    rw [hfalse] at htrue
    exact Bool.false_ne_true htrue
  · intro headers ident
    rw [find_entry, List.find?_eq_none]
    constructor
    · intro hall e he hcontra
      exact hall e he ((hmatch ident e).mpr hcontra)
    · intro hall e he hp
      exact hall e he ((hmatch ident e).mp hp)
  · intro file ident ph hok hnone
    unfold run_extract
    by_cases hid : ident = []
    · rw [if_pos hid]
    · rw [if_neg hid, hok]
      simp only []
      rcases hww : walkEntries file tableOffset ph.nFileCount with ⟨hs, b⟩
      rw [hww] at hnone
      simp only [] at hnone
      cases b
      · simp only []
        rw [hnone]
      · rfl

/-- Witness for C6: a table whose only entry has blank identifiers matches
neither field of the identifier `"B"`, so the lookup reports no entry. -/
theorem C6_lookup_first_match_witness :
    find_entry [mkEntryHeader 0 0 0 0 0] [66] = none := by
  apply (C6_lookup_first_match.2.1 [mkEntryHeader 0 0 0 0 0] [66]).mpr
  intro e he
  have he' : e = mkEntryHeader 0 0 0 0 0 := by simpa using he
  subst he'
  simp [mkEntryHeader]

/-- C4 counterexample: `fileC4` declares one partition named `"A"` of
100000 bytes starting at offset 0, but the whole file is 4704 bytes.
Extracting `"A"` completes and reports success with the 4704 available
bytes as the output — there is no `ShortRead` failure anywhere in the code;
the only failure the write path can produce is the sink `open` failing
(e.g. on a blank name), which is unrelated to short reads. -/
theorem C4_counterexample :
    run_extract fileC4 [65] = some ([65], fileC4)
    ∧ process fileC4 = some ([eC4], false)
    ∧ eC4.nFileSize = 100000
    ∧ fileC4.length = 4704
    ∧ fileC4.length < eC4.nFileSize := by
  have hproc : process fileC4 = some ([eC4], false) := by
    unfold process
    rw [read_pac_fileC4]
    show some (walkEntries fileC4 tableOffset (mkPacHeader 1 0).nFileCount) =
      some ([eC4], false)
    rw [show (mkPacHeader 1 0).nFileCount = 1 from rfl, walk_fileC4]
  refine ⟨extract_fileC4, hproc, by decide, fileC4_length, ?_⟩
  rw [fileC4_length]
  decide

/-- C4 amended: whenever the destination name is non-blank (so the sink
opens), `extract_data` completes silently even when the source yields fewer
bytes than the requested size — the output written is exactly the bytes
actually available (`min size (file.length - off)` of them, never more than
requested), left on disk with no error reported; when enough bytes exist,
exactly `size` bytes are copied. -/
theorem C4_amended_silent_truncation (file : List Nat) (off size : Nat)
    (filename : List Nat) (hname : filename ≠ []) :
    extract_data file off size filename = some (bytesAt file off size)
    ∧ (bytesAt file off size).length = min size (file.length - off)
    ∧ (size ≤ file.length - off → (bytesAt file off size).length = size)
    ∧ (bytesAt file off size).length ≤ size := by
  refine ⟨by rw [extract_data, if_neg hname], ?_, ?_, ?_⟩
  · rw [bytesAt_length]
  · intro hle
    rw [bytesAt_length]
    omega
  · rw [bytesAt_length]
    omega

/-- Witness for C4 amended on a 3-byte file with a request of 2 bytes
under the name `"A"`. -/
theorem C4_amended_silent_truncation_witness :
    extract_data [1, 2, 3] 0 2 [65] = some (bytesAt [1, 2, 3] 0 2)
    ∧ (bytesAt [1, 2, 3] 0 2).length = 2 := by
  have h := C4_amended_silent_truncation [1, 2, 3] 0 2 [65] (by decide)
  exact ⟨h.1, h.2.2.1 (by simp)⟩

/-- C5 counterexample: `surrBlock` is a full-size (2124-byte) archive header
block whose version field holds a lone UTF-16 high surrogate.  Decoding it
aborts (Python raises `UnicodeDecodeError`; modelled as `none`), the whole
run stops, and no lossy fallback is attempted — refuting the claim that
malformed UTF-16 never aborts the header decode. -/
theorem C5_counterexample :
    PacHeader.decode surrBlock = none
    ∧ surrBlock.length = PacHeader.SIZE
    ∧ read_pac_header surrBlock = ReadPacResult.badText
    ∧ process surrBlock = none := by
  refine ⟨decode_surrBlock, ?_, read_pac_surrBlock, proc_surrBlock⟩
  rw [surrBlock_length, pacHeaderSIZE_eq]

/-- C5 amended: archive header text decoding is strict, not lossy — if any
of the version / product-name / product-version UTF-16 fields (or the
ASCII flag field) fails to decode, the whole header decode aborts with a
hard failure. -/
theorem C5_amended_strict_decode (bs : List Nat) :
    (decodeUtf16 (toU16s (bytesAt bs 0 44)) = none
      ∨ decodeUtf16 (toU16s (bytesAt bs 52 512)) = none
      ∨ decodeUtf16 (toU16s (bytesAt bs 564 512)) = none
      ∨ decodeAsciiStrict (bytesAt bs 1108 200) = none) →
    PacHeader.decode bs = none := by
  intro h
  unfold PacHeader.decode
  split
  · exfalso
    rcases h with h | h | h | h <;> simp_all
  · rfl

/-- Witness for C5 amended at `surrBlock`'s malformed version field. -/
theorem C5_amended_strict_decode_witness : PacHeader.decode surrBlock = none :=
  C5_amended_strict_decode surrBlock (Or.inl (by decide))

/-- C7 counterexample: `fileC7` declares two entries whose records are all
zero, so both entries have blank `szFileID` and `szFileName`.  Export-all
resolves the first destination name to the empty string — not to a distinct
index-based placeholder — and opening that destination fails
(`IsADirectoryError` on `open('output/', 'wb')`): the run crashes at the
first blank entry with nothing exported, rather than writing both entries
under distinct names. -/
theorem C7_counterexample :
    run_export fileC7 = some ([], true)
    ∧ process fileC7 = some ([mkEntryHeader 0 0 0 0 0, mkEntryHeader 0 0 0 0 0], false)
    ∧ exportName (mkEntryHeader 0 0 0 0 0) = []
    ∧ extract_data fileC7 (mkEntryHeader 0 0 0 0 0).dwDataOffset
        (mkEntryHeader 0 0 0 0 0).nFileSize (exportName (mkEntryHeader 0 0 0 0 0)) = none :=
  ⟨export_fileC7, proc_fileC7, rfl, by decide⟩

/-- C7 amended: the export destination name is `szFileID` when non-empty,
else `szFileName`, with no index-based fallback: an entry whose identifiers
are both blank resolves to the empty destination name, whose `open` raises
(`IsADirectoryError`), aborting the export loop at that entry with nothing
written for it or any later entry; export-all otherwise feeds every walked
entry through exactly this naming rule. -/
theorem C7_amended_blank_crash :
    (∀ h : Header, exportName h = if h.szFileID = [] then h.szFileName else h.szFileID)
    ∧ (∀ h : Header, h.szFileID = [] → h.szFileName = [] →
        exportName h = []
        ∧ ∀ (file : List Nat) (rest : List Header),
            exportLoop file (h :: rest) = ([], true))
    ∧ (∀ (file : List Nat) (ph : PacHeader) (hs : List Header),
        read_pac_header file = ReadPacResult.ok ph →
        walkEntries file tableOffset ph.nFileCount = (hs, false) →
        run_export file = some (exportLoop file hs)) := by
  refine ⟨fun h => rfl, ?_, ?_⟩
  · intro h e1 e2
    have hname : exportName h = [] := by
      rw [exportName, if_pos e1, e2]
    refine ⟨hname, ?_⟩
    intro file rest
    rw [exportLoop_cons]
    rw [show extract_data file h.dwDataOffset h.nFileSize (exportName h) = none from by
      rw [hname, extract_data, if_pos rfl]]
  · intro file ph hs hok hw
    unfold run_export
    rw [hok]
    simp only []
    rw [hw]

/-- Witness for C7 amended: an all-blank entry resolves to the empty
destination name and aborts the export loop at its position. -/
theorem C7_amended_blank_crash_witness :
    exportName (mkEntryHeader 0 0 0 0 0) = []
    ∧ exportLoop fileC7 [mkEntryHeader 0 0 0 0 0] = ([], true) := by
  have h := C7_amended_blank_crash.2.1 (mkEntryHeader 0 0 0 0 0) rfl rfl
  exact ⟨h.1, h.2 fileC7 []⟩

/-- C8 counterexample: `leadNulBlock`'s version field decodes (as UTF-16LE)
to the character sequence NUL, `A`, NUL-padding.  Removing only trailing
zero padding (the spec's wording, `trimTrailingNul`) would give `[0, 65]`,
but the code's `strip('\x00')` also removes the leading NUL: the decoded
`szVersion` is `[65]`. -/
theorem C8_counterexample :
    PacHeader.decode leadNulBlock = some leadNulHeader
    ∧ leadNulHeader.szVersion = [65]
    ∧ decodeUtf16 (toU16s (bytesAt leadNulBlock 0 44)) = some (0 :: 65 :: List.replicate 20 0)
    ∧ trimTrailingNul (0 :: 65 :: List.replicate 20 0) = [0, 65]
    ∧ leadNulHeader.szVersion ≠ [0, 65] := by
  refine ⟨decode_leadNulBlock, rfl, leadNulBlock_version, ?_, by decide⟩
  rw [trimTrailingNul]
  simp [List.dropWhile, dropWhileZero_replicate_append]

/-- C8 amended: each decoded archive-header text field equals the UTF-16LE
decoding of its fixed-width block with both leading and trailing NUL
padding removed: the decoded block splits as leading NULs ++ field ++
trailing NULs, and the field itself neither starts nor ends with NUL
(unless empty). -/
theorem C8_amended_strip_both_ends (bs : List Nat) (ph : PacHeader)
    (hdec : PacHeader.decode bs = some ph) :
    (∃ u n m, decodeUtf16 (toU16s (bytesAt bs 0 44)) = some u
      ∧ u = List.replicate n 0 ++ ph.szVersion ++ List.replicate m 0
      ∧ (ph.szVersion = [] ∨
          (ph.szVersion.head? ≠ some 0 ∧ ph.szVersion.getLast? ≠ some 0)))
    ∧ (∃ u n m, decodeUtf16 (toU16s (bytesAt bs 52 512)) = some u
      ∧ u = List.replicate n 0 ++ ph.szPrdName ++ List.replicate m 0
      ∧ (ph.szPrdName = [] ∨
          (ph.szPrdName.head? ≠ some 0 ∧ ph.szPrdName.getLast? ≠ some 0)))
    ∧ (∃ u n m, decodeUtf16 (toU16s (bytesAt bs 564 512)) = some u
      ∧ u = List.replicate n 0 ++ ph.szPrdVersion ++ List.replicate m 0
      ∧ (ph.szPrdVersion = [] ∨
          (ph.szPrdVersion.head? ≠ some 0 ∧ ph.szPrdVersion.getLast? ≠ some 0))) := by
  unfold PacHeader.decode at hdec
  split at hdec
  · rename_i v pn pv oma hv hpn hpv homa
    cases hdec
    refine ⟨?_, ?_, ?_⟩
    · obtain ⟨n, m, hu, hdisj⟩ := stripNul_spec v
      exact ⟨v, n, m, hv, hu, hdisj⟩
    · obtain ⟨n, m, hu, hdisj⟩ := stripNul_spec pn
      exact ⟨pn, n, m, hpn, hu, hdisj⟩
    · obtain ⟨n, m, hu, hdisj⟩ := stripNul_spec pv
      exact ⟨pv, n, m, hpv, hu, hdisj⟩
  · simp at hdec

/-- Witness for C8 amended at `leadNulBlock`. -/
theorem C8_amended_strip_both_ends_witness :
    ∃ u n m, decodeUtf16 (toU16s (bytesAt leadNulBlock 0 44)) = some u
      ∧ u = List.replicate n 0 ++ leadNulHeader.szVersion ++ List.replicate m 0
      ∧ (leadNulHeader.szVersion = [] ∨
          (leadNulHeader.szVersion.head? ≠ some 0 ∧
            leadNulHeader.szVersion.getLast? ≠ some 0)) :=
  (C8_amended_strip_both_ends leadNulBlock leadNulHeader decode_leadNulBlock).1
